import Mathlib

/-!
# Outbox translation of workflow records (`event.go`)

A shallow embedding of `WireRecordToOutboxEventData` and of the `Header`
vocabulary of `event.go`, together with the library primitives the function
calls (`strconv.FormatInt`, the integer conversions, map assignment) and the
two external collaborators it is parameterised by (`Topic`, `proto.Marshal`).

Conventions.
* Go strings are Lean `String`s, `[]byte` is a list of bytes (the nil slice
  and the empty slice are both `[]`).
* Go `int` is the 64-bit signed integer of the usual targets: a value of type
  `Int` that satisfies `IsGoInt`. Conversions wrap explicitly.
* A Go result pair `(v, err)` is the Lean pair `(v, err)` with
  `err : Option ε`, `none` being the nil error.
* `proto.Marshal` is an external call: it is a parameter that maps the message
  and the state of the outside world to a result pair and a new state, so that
  the number of calls made is observable.
-/

namespace Workflow

/-! ## Go primitives -/

/-- The conversion `int32(x)`: two's-complement wrap-around to 32 bits. -/
def int32 (x : Int) : Int := (x + 2147483648) % 4294967296 - 2147483648

/-- The conversion `int64(x)`: two's-complement wrap-around to 64 bits. -/
def int64 (x : Int) : Int :=
  (x + 9223372036854775808) % 18446744073709551616 - 9223372036854775808

/-- The values a Go `int` (64 bits) can hold. -/
def IsGoInt (x : Int) : Prop := -9223372036854775808 ≤ x ∧ x ≤ 9223372036854775807

instance (x : Int) : Decidable (IsGoInt x) := by
  unfold IsGoInt; infer_instance

/-- The values an `int32` can hold. -/
def IsInt32 (x : Int) : Prop := -2147483648 ≤ x ∧ x ≤ 2147483647

instance (x : Int) : Decidable (IsInt32 x) := by
  unfold IsInt32; infer_instance

/-- A byte slice. -/
abbrev Bytes := List (Fin 256)

/-- A Go `map[string]string`: an association list in which every key occurs at
most once. -/
abbrev GoMap := List (String × String)

namespace GoMap

/-- The map `make(map[string]string)`. -/
def empty : GoMap := []

/-- The assignment `m[k] = v`: overwrites the entry of `k` when there is one,
adds an entry otherwise. -/
def set : GoMap → String → String → GoMap
  | [], k, v => [(k, v)]
  | (k', v') :: rest, k, v =>
    if k' = k then (k, v) :: rest else (k', v') :: set rest k v

/-- The lookup `m[k]` with its presence flag. -/
def get? (m : GoMap) (k : String) : Option String := m.lookup k

/-- The number of entries, `len(m)`. -/
def len (m : GoMap) : Nat := m.length

/-- The keys of the map. -/
def keys (m : GoMap) : List String := m.map Prod.fst

end GoMap

/-! ## `strconv` in base 10 -/

namespace strconv

/-- The character of a decimal digit. -/
def digitChar (d : Nat) : Char := Char.ofNat (48 + d)

/-- The decimal digits of `u`, most significant first, produced by repeated
division by ten; the first argument bounds the number of digits. -/
def formatDigits : Nat → Nat → List Char
  | 0, _ => []
  | f + 1, u =>
    if u < 10 then [digitChar u] else formatDigits f (u / 10) ++ [digitChar (u % 10)]

/-- The function `formatBits` in base 10: the digits of the magnitude `u`,
after a minus sign when `neg` is set. -/
def formatBits (u : Nat) (neg : Bool) : List Char :=
  if neg then '-' :: formatDigits (u + 1) u else formatDigits (u + 1) u

/-- The call `strconv.FormatInt(i, 10)`. -/
def FormatInt (i : Int) : String := String.mk (formatBits i.natAbs (decide (i < 0)))

/-- The value of a decimal digit character, if it is one. -/
def digitVal? (c : Char) : Option Nat :=
  if 48 ≤ c.toNat ∧ c.toNat ≤ 57 then some (c.toNat - 48) else none

/-- Reads a run of decimal digits, most significant first, onto `acc`. -/
def parseDigits : List Char → Nat → Option Nat
  | [], acc => some acc
  | c :: cs, acc =>
    match digitVal? c with
    | none => none
    | some d => parseDigits cs (acc * 10 + d)

/-- The magnitude read from a non-empty run of decimal digits. -/
def parseMagnitude (ds : List Char) : Option Nat :=
  if ds = [] then none else parseDigits ds 0

/-- The call `strconv.ParseInt(s, 10, 64)`: an optional sign followed by at
least one decimal digit, the value within the 64-bit signed range; `none`
stands for a syntax or range error. -/
def ParseInt (s : String) : Option Int :=
  match s.data with
  | [] => none
  | c :: ds =>
    if c = '-' then
      match parseMagnitude ds with
      | none => none
      | some n => if n ≤ 9223372036854775808 then some (-(n : Int)) else none
    else if c = '+' then
      match parseMagnitude ds with
      | none => none
      | some n => if n ≤ 9223372036854775807 then some (n : Int) else none
    else
      match parseMagnitude (c :: ds) with
      | none => none
      | some n => if n ≤ 9223372036854775807 then some (n : Int) else none

/-- A character between `lo` and `hi`, as code points. -/
def charIn (lo hi : Nat) (c : Char) : Bool := decide (lo ≤ c.toNat ∧ c.toNat ≤ hi)

/-- The canonical decimal numerals: `0`, or an optional minus sign followed by
a digit from 1 to 9 and then any digits. No plus sign and no leading zero. -/
def isCanonicalDecimal : List Char → Bool
  | [] => false
  | c :: cs =>
    if c = '-' then
      match cs with
      | [] => false
      | d :: ds => charIn 49 57 d && ds.all (charIn 48 57)
    else if c = '0' then cs.isEmpty
    else charIn 49 57 c && cs.all (charIn 48 57)

end strconv

/-! ## The data model of `event.go` -/

/-- The type `Header`, a string. -/
abbrev Header := String

def HeaderWorkflowName : Header := "workflow_name"
def HeaderForeignID : Header := "foreign_id"
def HeaderTopic : Header := "topic"
def HeaderRunID : Header := "run_id"
def HeaderRunState : Header := "run_state"
def HeaderPreviousRunState : Header := "previous_run_state"

/-- The type `RunState`, a Go `int`. -/
abbrev RunState := Int

/-- Modelled from the spec: the struct `WireRecord`, whose declaration is not
in `event.go`. The spec lists the fields the translator consumes: workflow
name, record identifier, foreign identifier, status, run identifier and run
state; every other field of the record (payload, timestamps, metadata) is
gathered in `Rest`. -/
structure WireRecord (ρ : Type) where
  ID : String
  WorkflowName : String
  ForeignID : String
  RunID : String
  RunState : RunState
  Status : Int
  Rest : ρ
deriving DecidableEq

/-- The message `outboxpb.OutboxRecord`, with the schema
`foreign_id: string, type: int32, headers: map<string,string>`. -/
structure OutboxRecord where
  ForeignId : String
  Type_ : Int
  Headers : GoMap
deriving DecidableEq

/-- The struct `OutboxEventData`. -/
structure OutboxEventData where
  WorkflowName : String
  Data : Bytes
deriving DecidableEq

/-- The zero value `OutboxEventData{}`. -/
def OutboxEventData.zero : OutboxEventData := { WorkflowName := "", Data := [] }

/-- The external function `Topic(workflowName, status)`. -/
abbrev TopicFn := String → Int → String

/-- The external call `proto.Marshal`: from the message and the state of the
outside world to the pair `(data, err)` and the new state. -/
abbrev Encoder (σ ε : Type) := OutboxRecord → σ → (Bytes × Option ε) × σ

/-! ## `WireRecordToOutboxEventData` -/

/-- Lines 71 to 85 of `event.go`: the topic, the headers map and the message
`r` that is handed to the encoder. -/
def outboxRecordOf {ρ : Type} (Topic : TopicFn) (record : WireRecord ρ)
    (previousRunState : RunState) : OutboxRecord :=
  let topic := Topic record.WorkflowName record.Status
  let headers := GoMap.empty
  let headers := headers.set HeaderForeignID record.ForeignID
  let headers := headers.set HeaderWorkflowName record.WorkflowName
  let headers := headers.set HeaderTopic topic
  let headers := headers.set HeaderRunID record.RunID
  let headers := headers.set HeaderRunState (strconv.FormatInt (int64 record.RunState))
  let headers := headers.set HeaderPreviousRunState (strconv.FormatInt (int64 previousRunState))
  { ForeignId := record.ID
    Type_ := int32 record.Status
    Headers := headers }

/-- The function `WireRecordToOutboxEventData`: builds the message, calls the
encoder once, and returns the zero value with the encoder's error, or the
workflow name with the encoded bytes and the nil error. -/
def WireRecordToOutboxEventData {ρ σ ε : Type} (Topic : TopicFn) (Marshal : Encoder σ ε)
    (record : WireRecord ρ) (previousRunState : RunState) (world : σ) :
    (OutboxEventData × Option ε) × σ :=
  let r := outboxRecordOf Topic record previousRunState
  match Marshal r world with
  | ((data, err), world') =>
    match err with
    | some e => ((OutboxEventData.zero, some e), world')
    | none => (({ WorkflowName := record.WorkflowName, Data := data }, none), world')

/-! ## Sample inputs -/

/-- The record of the onboarding example. -/
def sampleRecord : WireRecord Unit :=
  { ID := "rec-1", WorkflowName := "onboarding", ForeignID := "cust-42",
    RunID := "run-7", RunState := 2, Status := 3, Rest := () }

/-- A topic function: the workflow name, a dash, the status in decimal. -/
def sampleTopic : TopicFn := fun name status => name ++ "-" ++ strconv.FormatInt status

/-- The message built for the onboarding example. -/
def sampleMessage : OutboxRecord := outboxRecordOf sampleTopic sampleRecord 1

/-- A record whose status does not fit in 32 bits. -/
def wideStatusRecord : WireRecord Unit :=
  { ID := "rec-2", WorkflowName := "billing", ForeignID := "cust-9",
    RunID := "run-1", RunState := 1, Status := 2147483648, Rest := () }

/-- A record with nothing in its string fields. -/
def blankRecord : WireRecord Unit :=
  { ID := "", WorkflowName := "", ForeignID := "", RunID := "", RunState := 0, Status := 0,
    Rest := () }

/-- A record whose workflow name has capitals and surrounding blanks. -/
def paddedRecord : WireRecord Unit :=
  { ID := "rec-3", WorkflowName := " On Boarding ", ForeignID := "cust-1",
    RunID := "run-2", RunState := 4, Status := 1, Rest := () }

/-- An encoder that accepts the onboarding message and rejects every other
one. -/
def sampleEncoder : Encoder Nat String :=
  fun m calls =>
    if m = sampleMessage then (([10, 5], none), calls + 1)
    else (([], some "unsupported message"), calls + 1)

/-- The decoder of `sampleEncoder`. -/
def sampleDecoder : Bytes → Option OutboxRecord :=
  fun b => if b = [10, 5] then some sampleMessage else none

/-- An encoder that always succeeds and counts its calls in the world. -/
def countingEncoder : Encoder Nat String :=
  fun m calls => (([Fin.ofNat m.Headers.len, 1, 2], none), calls + 1)

/-- An encoder with one injected fault: the first call fails and leaves bytes
behind, every later call succeeds. -/
def faultOnceEncoder : Encoder Nat String :=
  fun _ calls =>
    if calls = 0 then (([9, 9], some "encoding fault"), calls + 1)
    else (([1, 2, 3], none), calls + 1)

/-- An encoder whose bytes depend on the world (as the order of map entries
does) and whose outcome depends on the message only: it rejects the messages
with an empty `foreign_id`. -/
def seededEncoder : Encoder Nat String :=
  fun m seed =>
    if m.ForeignId = "" then (([], some "malformed message"), seed + 1)
    else (([Fin.ofNat seed, Fin.ofNat m.Headers.len], none), seed + 1)

/-- The onboarding record in run state -7. -/
def negativeRunRecord : WireRecord Unit := { sampleRecord with RunState := -7 }

/-- The onboarding record with its status raised by 2^32. -/
def wrappedStatusRecord : WireRecord Unit := { sampleRecord with Status := 4294967299 }

/-- A record that agrees with the onboarding record on the six consumed fields
and carries a payload and two timestamps besides. -/
def payloadRecord : WireRecord (List Nat × Int × Int) :=
  { ID := "rec-1", WorkflowName := "onboarding", ForeignID := "cust-42",
    RunID := "run-7", RunState := 2, Status := 3, Rest := ([123, 34, 125], 1700000000, 1700000360) }

/-- Wraps an encoder so that the world also keeps the log of the messages it
was called on, oldest first. -/
def recording {σ ε : Type} (Marshal : Encoder σ ε) : Encoder (σ × List OutboxRecord) ε :=
  fun m w => ((Marshal m w.1).1, ((Marshal m w.1).2, w.2 ++ [m]))

/-! ## Lemmas on the primitives -/

theorem int64_of_isGoInt (x : Int) (h : IsGoInt x) : int64 x = x := by
  unfold IsGoInt at h
  unfold int64
  omega

theorem int32_of_isInt32 (x : Int) (h : IsInt32 x) : int32 x = x := by
  unfold IsInt32 at h
  unfold int32
  omega

theorem outboxRecordOf_headers {ρ : Type} (Topic : TopicFn) (record : WireRecord ρ)
    (p : RunState) :
    (outboxRecordOf Topic record p).Headers =
      [("foreign_id", record.ForeignID), ("workflow_name", record.WorkflowName),
       ("topic", Topic record.WorkflowName record.Status), ("run_id", record.RunID),
       ("run_state", strconv.FormatInt (int64 record.RunState)),
       ("previous_run_state", strconv.FormatInt (int64 p))] := by
  simp [outboxRecordOf, GoMap.set, GoMap.empty, HeaderForeignID, HeaderWorkflowName,
    HeaderTopic, HeaderRunID, HeaderRunState, HeaderPreviousRunState]

theorem GoMap.get?_isSome_iff (m : GoMap) (k : String) :
    (m.get? k).isSome = true ↔ k ∈ m.keys := by
  induction m with
  | nil => simp [GoMap.get?, GoMap.keys]
  | cons e rest ih =>
    obtain ⟨k', v'⟩ := e
    by_cases hk : k = k'
    · subst hk
      simp [GoMap.get?, GoMap.keys, List.lookup]
    · have hbeq : (k == k') = false := by simpa using hk
      simp only [GoMap.get?, GoMap.keys, List.lookup, hbeq, List.map_cons, List.mem_cons, hk,
        false_or]
      exact ih

namespace strconv

theorem digitVal_digitChar (d : Nat) (h : d < 10) : digitVal? (digitChar d) = some d := by
  interval_cases d <;> rfl

theorem charIn_digitChar (d : Nat) (h : d < 10) : charIn 48 57 (digitChar d) = true := by
  interval_cases d <;> rfl

theorem charIn_digitChar_pos (d : Nat) (h0 : 0 < d) (h : d < 10) :
    charIn 49 57 (digitChar d) = true := by
  interval_cases d <;> rfl

theorem parseDigits_append (xs ys : List Char) (acc : Nat) :
    parseDigits (xs ++ ys) acc = (parseDigits xs acc).bind (parseDigits ys) := by
  induction xs generalizing acc with
  | nil => simp [parseDigits]
  | cons c cs ih =>
    simp only [List.cons_append, parseDigits]
    cases digitVal? c with
    | none => simp
    | some d => simpa using ih (acc * 10 + d)

theorem parseDigits_formatDigits (f u : Nat) (h : u < f) :
    parseDigits (formatDigits f u) 0 = some u := by
  induction f generalizing u with
  | zero => omega
  | succ f ih =>
    unfold formatDigits
    split
    · rename_i hlt
      simp [parseDigits, digitVal_digitChar u hlt]
    · rename_i hge
      have hdiv : u / 10 < f := by omega
      rw [parseDigits_append, ih (u / 10) hdiv]
      simp only [Option.some_bind, parseDigits, digitVal_digitChar (u % 10) (by omega)]
      congr 1
      omega

theorem formatDigits_ne_nil (f u : Nat) (h : u < f) : formatDigits f u ≠ [] := by
  cases f with
  | zero => omega
  | succ f =>
    unfold formatDigits
    split <;> simp

theorem formatDigits_all_digits (f u : Nat) :
    (formatDigits f u).all (charIn 48 57) = true := by
  induction f generalizing u with
  | zero => simp [formatDigits]
  | succ f ih =>
    unfold formatDigits
    split
    · rename_i hlt
      simp [charIn_digitChar u hlt]
    · simp only [List.all_append, ih, Bool.true_and]
      simp [charIn_digitChar (u % 10) (by omega)]

theorem formatDigits_zero (f : Nat) : formatDigits (f + 1) 0 = ['0'] := by
  simp [formatDigits]; rfl

theorem formatDigits_pos_shape (f u : Nat) (h : u < f) (h0 : 0 < u) :
    ∃ c cs, formatDigits f u = c :: cs ∧ charIn 49 57 c = true ∧
      cs.all (charIn 48 57) = true := by
  induction f generalizing u with
  | zero => omega
  | succ f ih =>
    unfold formatDigits
    split
    · rename_i hlt
      exact ⟨digitChar u, [], rfl, charIn_digitChar_pos u h0 hlt, rfl⟩
    · rename_i hge
      obtain ⟨c, cs, hcs, hc, hall⟩ := ih (u / 10) (by omega) (by omega)
      refine ⟨c, cs ++ [digitChar (u % 10)], by simp [hcs], hc, ?_⟩
      simp only [List.all_append, hall, Bool.true_and]
      simp [charIn_digitChar (u % 10) (by omega)]

theorem formatDigits_cons (f u : Nat) (h : u < f) :
    ∃ c cs, formatDigits f u = c :: cs ∧ charIn 48 57 c = true := by
  have hall := formatDigits_all_digits f u
  have hne := formatDigits_ne_nil f u h
  cases hds : formatDigits f u with
  | nil => exact absurd hds hne
  | cons c cs =>
    rw [hds] at hall
    simp only [List.all_cons, Bool.and_eq_true] at hall
    exact ⟨c, cs, rfl, hall.1⟩

theorem parseMagnitude_formatDigits (u : Nat) :
    parseMagnitude (formatDigits (u + 1) u) = some u := by
  unfold parseMagnitude
  rw [if_neg (formatDigits_ne_nil (u + 1) u (by omega))]
  exact parseDigits_formatDigits (u + 1) u (by omega)

/-- Parsing what `FormatInt` prints gives the number back. -/
theorem ParseInt_FormatInt (i : Int) (h : IsGoInt i) : ParseInt (FormatInt i) = some i := by
  unfold IsGoInt at h
  by_cases hneg : i < 0
  · have hdata : (FormatInt i).data = '-' :: formatDigits (i.natAbs + 1) i.natAbs := by
      simp [FormatInt, formatBits, hneg]
    unfold ParseInt
    rw [hdata]
    simp only [if_true, parseMagnitude_formatDigits]
    rw [if_pos (by omega)]
    congr 1
    omega
  · have hdata : (FormatInt i).data = formatDigits (i.natAbs + 1) i.natAbs := by
      simp [FormatInt, formatBits, hneg]
    obtain ⟨c, cs, hcs, hc⟩ := formatDigits_cons (i.natAbs + 1) i.natAbs (by omega)
    have hminus : c ≠ '-' := by
      intro hc'
      rw [hc'] at hc
      exact absurd hc (by decide)
    have hplus : c ≠ '+' := by
      intro hc'
      rw [hc'] at hc
      exact absurd hc (by decide)
    unfold ParseInt
    rw [hdata, hcs]
    simp only [if_neg hminus, if_neg hplus]
    rw [← hcs, parseMagnitude_formatDigits]
    simp only
    rw [if_pos (by omega)]
    congr 1
    omega

/-- What `FormatInt` prints is a canonical decimal numeral. -/
theorem isCanonicalDecimal_FormatInt (i : Int) :
    isCanonicalDecimal (FormatInt i).data = true := by
  by_cases hneg : i < 0
  · have hdata : (FormatInt i).data = '-' :: formatDigits (i.natAbs + 1) i.natAbs := by
      simp [FormatInt, formatBits, hneg]
    obtain ⟨c, cs, hcs, hc, hall⟩ :=
      formatDigits_pos_shape (i.natAbs + 1) i.natAbs (by omega) (by omega)
    rw [hdata, hcs]
    simp [isCanonicalDecimal, hc, hall]
  · have hdata : (FormatInt i).data = formatDigits (i.natAbs + 1) i.natAbs := by
      simp [FormatInt, formatBits, hneg]
    by_cases hz : i = 0
    · subst hz
      rfl
    · obtain ⟨c, cs, hcs, hc, hall⟩ :=
        formatDigits_pos_shape (i.natAbs + 1) i.natAbs (by omega) (by omega)
      have hminus : c ≠ '-' := by
        intro hc'
        rw [hc'] at hc
        exact absurd hc (by decide)
      have hzero : c ≠ '0' := by
        intro hc'
        rw [hc'] at hc
        exact absurd hc (by decide)
      rw [hdata, hcs]
      simp [isCanonicalDecimal, hc, hall, hminus, hzero]

/-- The numeral that `FormatInt` prints starts with a minus sign exactly for the
negative numbers. -/
theorem FormatInt_head_minus (i : Int) : (FormatInt i).data.head? = some '-' ↔ i < 0 := by
  by_cases hneg : i < 0
  · simp [FormatInt, formatBits, hneg]
  · have hdata : (FormatInt i).data = formatDigits (i.natAbs + 1) i.natAbs := by
      simp [FormatInt, formatBits, hneg]
    obtain ⟨c, cs, hcs, hc⟩ := formatDigits_cons (i.natAbs + 1) i.natAbs (by omega)
    have hminus : c ≠ '-' := by
      intro hc'
      rw [hc'] at hc
      exact absurd hc (by decide)
    rw [hdata, hcs]
    simp [hneg, hminus]

end strconv

/-! ## Lemmas on the conversions and on the headers -/

theorem int32_isInt32 (x : Int) : IsInt32 (int32 x) := by
  unfold IsInt32 int32
  omega

theorem int32_congruent (x : Int) : ∃ k : Int, x = int32 x + k * 4294967296 := by
  refine ⟨(x + 2147483648) / 4294967296, ?_⟩
  unfold int32
  omega

theorem int32_unique (x t : Int) (ht : IsInt32 t) (hk : ∃ k : Int, x = t + k * 4294967296) :
    t = int32 x := by
  obtain ⟨k, hk⟩ := hk
  unfold IsInt32 at ht
  unfold int32
  omega

theorem int32_shift (x k : Int) : int32 (x + k * 4294967296) = int32 x := by
  unfold int32
  omega

theorem strconv.FormatInt_injective (a b : Int) (ha : IsGoInt a) (hb : IsGoInt b)
    (h : strconv.FormatInt a = strconv.FormatInt b) : a = b := by
  have h1 := strconv.ParseInt_FormatInt a ha
  rw [h, strconv.ParseInt_FormatInt b hb] at h1
  exact (Option.some.inj h1).symm

theorem outboxRecordOf_get {ρ : Type} (Topic : TopicFn) (record : WireRecord ρ)
    (p : RunState) :
    (outboxRecordOf Topic record p).Headers.get? HeaderWorkflowName =
      some record.WorkflowName ∧
    (outboxRecordOf Topic record p).Headers.get? HeaderForeignID = some record.ForeignID ∧
    (outboxRecordOf Topic record p).Headers.get? HeaderTopic =
      some (Topic record.WorkflowName record.Status) ∧
    (outboxRecordOf Topic record p).Headers.get? HeaderRunID = some record.RunID ∧
    (outboxRecordOf Topic record p).Headers.get? HeaderRunState =
      some (strconv.FormatInt (int64 record.RunState)) ∧
    (outboxRecordOf Topic record p).Headers.get? HeaderPreviousRunState =
      some (strconv.FormatInt (int64 p)) := by
  rw [outboxRecordOf_headers]
  refine ⟨?_, ?_, ?_, ?_, ?_, ?_⟩ <;> rfl

/-! ## The two outcomes of the translator -/

theorem wire_error_eq {ρ σ ε : Type} (Topic : TopicFn) (Marshal : Encoder σ ε)
    (record : WireRecord ρ) (p : RunState) (world : σ) :
    (WireRecordToOutboxEventData Topic Marshal record p world).1.2 =
      (Marshal (outboxRecordOf Topic record p) world).1.2 := by
  simp only [WireRecordToOutboxEventData]
  split <;> simp_all

theorem wire_world_eq {ρ σ ε : Type} (Topic : TopicFn) (Marshal : Encoder σ ε)
    (record : WireRecord ρ) (p : RunState) (world : σ) :
    (WireRecordToOutboxEventData Topic Marshal record p world).2 =
      (Marshal (outboxRecordOf Topic record p) world).2 := by
  simp only [WireRecordToOutboxEventData]
  split <;> simp_all

theorem wire_value_of_ok {ρ σ ε : Type} (Topic : TopicFn) (Marshal : Encoder σ ε)
    (record : WireRecord ρ) (p : RunState) (world : σ)
    (h : (Marshal (outboxRecordOf Topic record p) world).1.2 = none) :
    (WireRecordToOutboxEventData Topic Marshal record p world).1.1 =
      { WorkflowName := record.WorkflowName,
        Data := (Marshal (outboxRecordOf Topic record p) world).1.1 } := by
  simp only [WireRecordToOutboxEventData]
  split <;> simp_all

theorem wire_value_of_error {ρ σ ε : Type} (Topic : TopicFn) (Marshal : Encoder σ ε)
    (record : WireRecord ρ) (p : RunState) (world : σ) (e : ε)
    (h : (Marshal (outboxRecordOf Topic record p) world).1.2 = some e) :
    (WireRecordToOutboxEventData Topic Marshal record p world).1.1 = OutboxEventData.zero := by
  simp only [WireRecordToOutboxEventData]
  split <;> simp_all

/-! ## The claims -/

/-- C1, as the code has it: the `foreign_id` field of the message is not the
record's `ForeignID`. For the onboarding record it is `rec-1`, the record's
`ID`, while the record's `ForeignID` is `cust-42`; the decoder reads `rec-1`
back from the returned `Data`. -/
theorem wire_foreign_id_field_counterexample :
    (outboxRecordOf sampleTopic sampleRecord 1).ForeignId = "rec-1" ∧
    sampleRecord.ForeignID = "cust-42" ∧
    (outboxRecordOf sampleTopic sampleRecord 1).ForeignId ≠ sampleRecord.ForeignID ∧
    (sampleDecoder
      (WireRecordToOutboxEventData sampleTopic sampleEncoder sampleRecord 1 0).1.1.Data).map
        OutboxRecord.ForeignId = some "rec-1" := by
  decide

/-- C1, amended: for every record and previous run state, the message that is
built and encoded has a `foreign_id` field equal to the record's `ID`; on
success any decoder that inverts the encoder reads that message back from the
returned `Data`; and the field equals the record's `ForeignID` exactly when the
record's `ID` and `ForeignID` coincide. -/
theorem wire_foreign_id_field_is_record_id {ρ σ ε : Type} (Topic : TopicFn)
    (Marshal : Encoder σ ε) (Unmarshal : Bytes → Option OutboxRecord)
    (record : WireRecord ρ) (p : RunState) (world : σ)
    (hinv : ∀ m w, (Marshal m w).1.2 = none → Unmarshal (Marshal m w).1.1 = some m)
    (hok : (WireRecordToOutboxEventData Topic Marshal record p world).1.2 = none) :
    (outboxRecordOf Topic record p).ForeignId = record.ID ∧
    Unmarshal (WireRecordToOutboxEventData Topic Marshal record p world).1.1.Data =
      some (outboxRecordOf Topic record p) ∧
    ((outboxRecordOf Topic record p).ForeignId = record.ForeignID ↔
      record.ID = record.ForeignID) := by
  rw [wire_error_eq] at hok
  refine ⟨rfl, ?_, Iff.rfl⟩
  rw [wire_value_of_ok Topic Marshal record p world hok]
  exact hinv _ _ hok

/-- C1, amended, on the onboarding example with the sample encoder and its
decoder. -/
theorem wire_foreign_id_field_is_record_id_witness :
    (outboxRecordOf sampleTopic sampleRecord 1).ForeignId = sampleRecord.ID ∧
    sampleDecoder (WireRecordToOutboxEventData sampleTopic sampleEncoder sampleRecord 1 0).1.1.Data
      = some (outboxRecordOf sampleTopic sampleRecord 1) ∧
    ((outboxRecordOf sampleTopic sampleRecord 1).ForeignId = sampleRecord.ForeignID ↔
      sampleRecord.ID = sampleRecord.ForeignID) :=
  wire_foreign_id_field_is_record_id sampleTopic sampleEncoder sampleDecoder sampleRecord 1 0
    (by
      intro m w h
      by_cases hm : m = sampleMessage
      · subst hm
        simp [sampleEncoder, sampleDecoder]
      · simp [sampleEncoder, hm] at h)
    (by decide)

/-- C2: whenever the translator succeeds, the `WorkflowName` of the returned
`OutboxEventData` is the record's `WorkflowName`, unchanged. -/
theorem wire_workflow_name_preserved {ρ σ ε : Type} (Topic : TopicFn) (Marshal : Encoder σ ε)
    (record : WireRecord ρ) (p : RunState) (world : σ)
    (hok : (WireRecordToOutboxEventData Topic Marshal record p world).1.2 = none) :
    (WireRecordToOutboxEventData Topic Marshal record p world).1.1.WorkflowName =
      record.WorkflowName := by
  rw [wire_error_eq] at hok
  rw [wire_value_of_ok Topic Marshal record p world hok]

/-- C2 on a record whose name has capitals and blanks, and on the record with
the empty name. -/
theorem wire_workflow_name_preserved_witness :
    (WireRecordToOutboxEventData sampleTopic countingEncoder paddedRecord 3 0).1.1.WorkflowName
      = " On Boarding " ∧
    (WireRecordToOutboxEventData sampleTopic countingEncoder blankRecord 0 0).1.1.WorkflowName
      = "" :=
  ⟨wire_workflow_name_preserved sampleTopic countingEncoder paddedRecord 3 0 (by decide),
   wire_workflow_name_preserved sampleTopic countingEncoder blankRecord 0 0 (by decide)⟩

/-- C3: the headers map of the message has exactly six entries, its keys are
pairwise distinct and are exactly the six names of the header vocabulary, a
lookup finds an entry for these six names and for no other; the six `Header`
constants have these string values and are pairwise distinct. -/
theorem wire_headers_exactly_six_keys {ρ : Type} (Topic : TopicFn) (record : WireRecord ρ)
    (p : RunState) :
    (outboxRecordOf Topic record p).Headers.len = 6 ∧
    (outboxRecordOf Topic record p).Headers.keys.Nodup ∧
    (∀ k, k ∈ (outboxRecordOf Topic record p).Headers.keys ↔
      k ∈ ["workflow_name", "foreign_id", "topic", "run_id", "run_state",
        "previous_run_state"]) ∧
    (∀ k, ((outboxRecordOf Topic record p).Headers.get? k).isSome = true ↔
      k ∈ ["workflow_name", "foreign_id", "topic", "run_id", "run_state",
        "previous_run_state"]) ∧
    [HeaderWorkflowName, HeaderForeignID, HeaderTopic, HeaderRunID, HeaderRunState,
      HeaderPreviousRunState] =
      ["workflow_name", "foreign_id", "topic", "run_id", "run_state", "previous_run_state"] ∧
    [HeaderWorkflowName, HeaderForeignID, HeaderTopic, HeaderRunID, HeaderRunState,
      HeaderPreviousRunState].Nodup := by
  have hkeys : (outboxRecordOf Topic record p).Headers.keys =
      ["foreign_id", "workflow_name", "topic", "run_id", "run_state", "previous_run_state"] := by
    rw [outboxRecordOf_headers]
    rfl
  have hmem : ∀ k, k ∈ (outboxRecordOf Topic record p).Headers.keys ↔
      k ∈ ["workflow_name", "foreign_id", "topic", "run_id", "run_state",
        "previous_run_state"] := by
    intro k
    rw [hkeys]
    simp only [List.mem_cons, List.mem_singleton, List.not_mem_nil, or_false]
    tauto
  refine ⟨?_, ?_, hmem, ?_, rfl, by decide⟩
  · rw [outboxRecordOf_headers]
    rfl
  · rw [hkeys]
    decide
  · intro k
    rw [GoMap.get?_isSome_iff]
    exact hmem k

/-- C4: for a record whose run state is a Go `int` and a previous run state
that is a Go `int`, the headers map sends `workflow_name` to the record's
workflow name, `foreign_id` to its foreign id, `topic` to the topic function
applied to the workflow name and the untruncated status, `run_id` to its run
id, `run_state` to the decimal string of its run state and
`previous_run_state` to the decimal string of the previous run state. -/
theorem wire_headers_values {ρ : Type} (Topic : TopicFn) (record : WireRecord ρ)
    (p : RunState) (hrun : IsGoInt record.RunState) (hprev : IsGoInt p) :
    (outboxRecordOf Topic record p).Headers.get? HeaderWorkflowName =
      some record.WorkflowName ∧
    (outboxRecordOf Topic record p).Headers.get? HeaderForeignID = some record.ForeignID ∧
    (outboxRecordOf Topic record p).Headers.get? HeaderTopic =
      some (Topic record.WorkflowName record.Status) ∧
    (outboxRecordOf Topic record p).Headers.get? HeaderRunID = some record.RunID ∧
    (outboxRecordOf Topic record p).Headers.get? HeaderRunState =
      some (strconv.FormatInt record.RunState) ∧
    (outboxRecordOf Topic record p).Headers.get? HeaderPreviousRunState =
      some (strconv.FormatInt p) := by
  rw [outboxRecordOf_headers, int64_of_isGoInt _ hrun, int64_of_isGoInt _ hprev]
  refine ⟨?_, ?_, ?_, ?_, ?_, ?_⟩ <;> rfl

/-- C4 on the onboarding example, where the topic function returns
`onboarding-3`. -/
theorem wire_headers_values_witness :
    sampleTopic "onboarding" 3 = "onboarding-3" ∧
    (outboxRecordOf sampleTopic sampleRecord 1).Headers.get? "workflow_name" =
      some "onboarding" ∧
    (outboxRecordOf sampleTopic sampleRecord 1).Headers.get? "foreign_id" = some "cust-42" ∧
    (outboxRecordOf sampleTopic sampleRecord 1).Headers.get? "topic" = some "onboarding-3" ∧
    (outboxRecordOf sampleTopic sampleRecord 1).Headers.get? "run_id" = some "run-7" ∧
    (outboxRecordOf sampleTopic sampleRecord 1).Headers.get? "run_state" = some "2" ∧
    (outboxRecordOf sampleTopic sampleRecord 1).Headers.get? "previous_run_state" = some "1" :=
  ⟨by decide, wire_headers_values sampleTopic sampleRecord 1 (by decide) (by decide)⟩

/-- C5, as the code has it: a status that a Go `int` can hold and that does not
fit in 32 bits is not the `type` of the message. Status 2147483648 gives type
-2147483648. -/
theorem wire_type_counterexample :
    IsGoInt wideStatusRecord.Status ∧
    (outboxRecordOf sampleTopic wideStatusRecord 1).Type_ = -2147483648 ∧
    (outboxRecordOf sampleTopic wideStatusRecord 1).Type_ ≠ wideStatusRecord.Status := by
  decide

/-- C5, amended: for every record whose status lies between -2^31 and 2^31-1,
the `type` field of the message equals the record's status. -/
theorem wire_type_is_status_in_int32_range {ρ : Type} (Topic : TopicFn) (record : WireRecord ρ)
    (p : RunState) (hstatus : IsInt32 record.Status) :
    (outboxRecordOf Topic record p).Type_ = record.Status :=
  int32_of_isInt32 record.Status hstatus

/-- C5, amended, on the onboarding example and on the two ends of the 32-bit
range. -/
theorem wire_type_is_status_in_int32_range_witness :
    (outboxRecordOf sampleTopic sampleRecord 1).Type_ = 3 ∧
    (outboxRecordOf sampleTopic { sampleRecord with Status := 2147483647 } 1).Type_
      = 2147483647 ∧
    (outboxRecordOf sampleTopic { sampleRecord with Status := -2147483648 } 1).Type_
      = -2147483648 :=
  ⟨wire_type_is_status_in_int32_range sampleTopic sampleRecord 1 (by decide),
   wire_type_is_status_in_int32_range sampleTopic { sampleRecord with Status := 2147483647 } 1
     (by decide),
   wire_type_is_status_in_int32_range sampleTopic { sampleRecord with Status := -2147483648 } 1
     (by decide)⟩

/-- C6: if the encoder fails on the constructed message with the error `e`, the
translator returns the zero `OutboxEventData` (empty workflow name, no data)
together with exactly `e`, whatever bytes the encoder left and whatever the
record's workflow name is; the world it leaves is the one after a single
encoder call, and the log of encoder calls grows by exactly one call, on the
constructed message. -/
theorem wire_encoder_failure_propagated {ρ σ ε : Type} (Topic : TopicFn)
    (Marshal : Encoder σ ε) (record : WireRecord ρ) (p : RunState) (world : σ) (e : ε)
    (calls : List OutboxRecord)
    (hfail : (Marshal (outboxRecordOf Topic record p) world).1.2 = some e) :
    (WireRecordToOutboxEventData Topic Marshal record p world).1 =
      (OutboxEventData.zero, some e) ∧
    OutboxEventData.zero.WorkflowName = "" ∧
    OutboxEventData.zero.Data = [] ∧
    (WireRecordToOutboxEventData Topic Marshal record p world).2 =
      (Marshal (outboxRecordOf Topic record p) world).2 ∧
    (WireRecordToOutboxEventData Topic (recording Marshal) record p (world, calls)).2.2 =
      calls ++ [outboxRecordOf Topic record p] := by
  refine ⟨?_, rfl, rfl, wire_world_eq Topic Marshal record p world, ?_⟩
  · apply Prod.ext
    · exact wire_value_of_error Topic Marshal record p world e hfail
    · rw [wire_error_eq]
      exact hfail
  · rw [wire_world_eq]
    rfl

/-- C6 on the onboarding example with an encoder whose first call fails and
whose second call would succeed: the fault is returned with the zero value and
the encoder has been called once. -/
theorem wire_encoder_failure_propagated_witness :
    (WireRecordToOutboxEventData sampleTopic faultOnceEncoder sampleRecord 1 0).1 =
      (OutboxEventData.zero, some "encoding fault") ∧
    OutboxEventData.zero.WorkflowName = "" ∧
    OutboxEventData.zero.Data = [] ∧
    (WireRecordToOutboxEventData sampleTopic faultOnceEncoder sampleRecord 1 0).2 = 1 ∧
    (WireRecordToOutboxEventData sampleTopic (recording faultOnceEncoder) sampleRecord 1
      (0, [])).2.2 = [] ++ [outboxRecordOf sampleTopic sampleRecord 1] :=
  wire_encoder_failure_propagated sampleTopic faultOnceEncoder sampleRecord 1 0
    "encoding fault" [] (by decide)

/-- C7: the translator returns an error exactly when the encoder fails on the
constructed message, and then it is the encoder's error; with an encoder that
never fails it never fails; when the encoder succeeds, the result is the
record's workflow name with exactly the encoder's output bytes for the message,
and the nil error. -/
theorem wire_fails_iff_encoder_fails {ρ σ ε : Type} (Topic : TopicFn)
    (Marshal : Encoder σ ε) (record : WireRecord ρ) (p : RunState) (world : σ) :
    ((WireRecordToOutboxEventData Topic Marshal record p world).1.2 ≠ none ↔
      (Marshal (outboxRecordOf Topic record p) world).1.2 ≠ none) ∧
    (WireRecordToOutboxEventData Topic Marshal record p world).1.2 =
      (Marshal (outboxRecordOf Topic record p) world).1.2 ∧
    ((∀ m w, (Marshal m w).1.2 = none) →
      (WireRecordToOutboxEventData Topic Marshal record p world).1.2 = none) ∧
    ((Marshal (outboxRecordOf Topic record p) world).1.2 = none →
      (WireRecordToOutboxEventData Topic Marshal record p world).1 =
        ({ WorkflowName := record.WorkflowName,
           Data := (Marshal (outboxRecordOf Topic record p) world).1.1 }, none)) := by
  refine ⟨by rw [wire_error_eq], wire_error_eq Topic Marshal record p world, ?_, ?_⟩
  · intro h
    rw [wire_error_eq]
    exact h _ _
  · intro h
    apply Prod.ext
    · exact wire_value_of_ok Topic Marshal record p world h
    · rw [wire_error_eq]
      exact h

/-- C7 on the record with an empty workflow name and an empty foreign id, with
a negative previous run state and an encoder that never fails: no error, and
the data are the encoder's bytes. -/
theorem wire_fails_iff_encoder_fails_witness :
    (WireRecordToOutboxEventData sampleTopic countingEncoder blankRecord (-5) 0).1.2 = none ∧
    (WireRecordToOutboxEventData sampleTopic countingEncoder blankRecord (-5) 0).1 =
      ({ WorkflowName := "", Data := [6, 1, 2] }, none) :=
  ⟨(wire_fails_iff_encoder_fails sampleTopic countingEncoder blankRecord (-5) 0).2.2.1
      (fun _ _ => rfl),
   (wire_fails_iff_encoder_fails sampleTopic countingEncoder blankRecord (-5) 0).2.2.2
      (by decide)⟩

/-- C8: for a record whose run state is a Go `int` and a previous run state
that is a Go `int`, the `run_state` and `previous_run_state` headers are present,
parsing them as signed base-10 integers gives the record's run state and the
previous run state back, both are canonical numerals (no plus sign, no leading
zero) that start with a minus sign exactly for a negative code, the previous
run state is printed by `FormatInt` whatever its value, and the code 0 is
printed as `0`. -/
theorem wire_run_state_headers_parse_back {ρ : Type} (Topic : TopicFn) (record : WireRecord ρ)
    (p : RunState) (hrun : IsGoInt record.RunState) (hprev : IsGoInt p) :
    ∃ s t,
      (outboxRecordOf Topic record p).Headers.get? HeaderRunState = some s ∧
      (outboxRecordOf Topic record p).Headers.get? HeaderPreviousRunState = some t ∧
      strconv.ParseInt s = some record.RunState ∧
      strconv.ParseInt t = some p ∧
      strconv.isCanonicalDecimal s.data = true ∧
      strconv.isCanonicalDecimal t.data = true ∧
      (s.data.head? = some '-' ↔ record.RunState < 0) ∧
      (t.data.head? = some '-' ↔ p < 0) ∧
      t = strconv.FormatInt p ∧
      (p = 0 → t = "0") := by
  refine ⟨strconv.FormatInt record.RunState, strconv.FormatInt p, ?_, ?_,
    strconv.ParseInt_FormatInt _ hrun, strconv.ParseInt_FormatInt _ hprev,
    strconv.isCanonicalDecimal_FormatInt _, strconv.isCanonicalDecimal_FormatInt _,
    strconv.FormatInt_head_minus _, strconv.FormatInt_head_minus _, rfl, ?_⟩
  · rw [outboxRecordOf_headers, int64_of_isGoInt _ hrun]
    rfl
  · rw [outboxRecordOf_headers, int64_of_isGoInt _ hprev]
    rfl
  · intro hp
    subst hp
    rfl

/-- C8 on the onboarding record in run state -7 with the previous run state 0,
the code for no prior run. -/
theorem wire_run_state_headers_parse_back_witness :
    ∃ s t,
      (outboxRecordOf sampleTopic negativeRunRecord 0).Headers.get? HeaderRunState = some s ∧
      (outboxRecordOf sampleTopic negativeRunRecord 0).Headers.get? HeaderPreviousRunState
        = some t ∧
      strconv.ParseInt s = some (-7) ∧
      strconv.ParseInt t = some 0 ∧
      strconv.isCanonicalDecimal s.data = true ∧
      strconv.isCanonicalDecimal t.data = true ∧
      (s.data.head? = some '-' ↔ (-7 : Int) < 0) ∧
      (t.data.head? = some '-' ↔ (0 : Int) < 0) ∧
      t = strconv.FormatInt 0 ∧
      ((0 : Int) = 0 → t = "0") :=
  wire_run_state_headers_parse_back sampleTopic negativeRunRecord 0 (by decide) (by decide)

/-- C9, as the code has it: the outcome of the translator follows the encoder's,
which may depend on the world outside the two arguments. With the encoder that
fails on its first call only, the onboarding record and the previous run state
1 give the zero value and an error in the world 0, and the workflow name
`onboarding` and no error in the world 1. -/
theorem wire_deterministic_counterexample :
    (WireRecordToOutboxEventData sampleTopic faultOnceEncoder sampleRecord 1 0).1 =
      (OutboxEventData.zero, some "encoding fault") ∧
    (WireRecordToOutboxEventData sampleTopic faultOnceEncoder sampleRecord 1 1).1 =
      ({ WorkflowName := "onboarding", Data := [1, 2, 3] }, none) ∧
    (WireRecordToOutboxEventData sampleTopic faultOnceEncoder sampleRecord 1 0).1.1.WorkflowName ≠
      (WireRecordToOutboxEventData sampleTopic faultOnceEncoder sampleRecord 1 1).1.1.WorkflowName ∧
    ((WireRecordToOutboxEventData sampleTopic faultOnceEncoder sampleRecord 1 0).1.2).isSome ≠
      ((WireRecordToOutboxEventData sampleTopic faultOnceEncoder sampleRecord 1 1).1.2).isSome := by
  decide

/-- C9, amended: two invocations with equal records and equal previous run
states, in whatever state the outside world is at each, build messages with
the same `foreign_id`, the same `type` and the same headers map, and hand the
same single message to the encoder; when the encoder succeeds in both or fails
in both, they return the same `WorkflowName` and the same success or failure;
and when the encoder returns the same pair in both, they return the same
pair. -/
theorem wire_deterministic_given_encoder_outcome {ρ σ ε : Type} (Topic : TopicFn)
    (Marshal : Encoder σ ε) (r1 r2 : WireRecord ρ) (p1 p2 : RunState) (w1 w2 : σ)
    (hr : r1 = r2) (hp : p1 = p2)
    (hout : ((Marshal (outboxRecordOf Topic r1 p1) w1).1.2).isSome =
      ((Marshal (outboxRecordOf Topic r2 p2) w2).1.2).isSome) :
    (outboxRecordOf Topic r1 p1).ForeignId = (outboxRecordOf Topic r2 p2).ForeignId ∧
    (outboxRecordOf Topic r1 p1).Type_ = (outboxRecordOf Topic r2 p2).Type_ ∧
    (outboxRecordOf Topic r1 p1).Headers = (outboxRecordOf Topic r2 p2).Headers ∧
    (WireRecordToOutboxEventData Topic (recording Marshal) r1 p1 (w1, [])).2.2 =
      (WireRecordToOutboxEventData Topic (recording Marshal) r2 p2 (w2, [])).2.2 ∧
    (WireRecordToOutboxEventData Topic Marshal r1 p1 w1).1.1.WorkflowName =
      (WireRecordToOutboxEventData Topic Marshal r2 p2 w2).1.1.WorkflowName ∧
    ((WireRecordToOutboxEventData Topic Marshal r1 p1 w1).1.2).isSome =
      ((WireRecordToOutboxEventData Topic Marshal r2 p2 w2).1.2).isSome ∧
    ((Marshal (outboxRecordOf Topic r1 p1) w1).1 = (Marshal (outboxRecordOf Topic r2 p2) w2).1 →
      (WireRecordToOutboxEventData Topic Marshal r1 p1 w1).1 =
        (WireRecordToOutboxEventData Topic Marshal r2 p2 w2).1) := by
  subst hr hp
  refine ⟨rfl, rfl, rfl, ?_, ?_, ?_, ?_⟩
  · rw [wire_world_eq, wire_world_eq]
    rfl
  · cases h1 : (Marshal (outboxRecordOf Topic r1 p1) w1).1.2 with
    | none =>
      cases h2 : (Marshal (outboxRecordOf Topic r1 p1) w2).1.2 with
      | none =>
        rw [wire_value_of_ok Topic Marshal r1 p1 w1 h1,
          wire_value_of_ok Topic Marshal r1 p1 w2 h2]
      | some e2 => simp [h1, h2] at hout
    | some e1 =>
      cases h2 : (Marshal (outboxRecordOf Topic r1 p1) w2).1.2 with
      | none => simp [h1, h2] at hout
      | some e2 =>
        rw [wire_value_of_error Topic Marshal r1 p1 w1 e1 h1,
          wire_value_of_error Topic Marshal r1 p1 w2 e2 h2]
  · rw [wire_error_eq, wire_error_eq]
    exact hout
  · intro hsame
    have herr : (Marshal (outboxRecordOf Topic r1 p1) w1).1.2 =
        (Marshal (outboxRecordOf Topic r1 p1) w2).1.2 := by rw [hsame]
    apply Prod.ext
    · cases h2 : (Marshal (outboxRecordOf Topic r1 p1) w2).1.2 with
      | none =>
        rw [wire_value_of_ok Topic Marshal r1 p1 w1 (herr.trans h2),
          wire_value_of_ok Topic Marshal r1 p1 w2 h2, hsame]
      | some e =>
        rw [wire_value_of_error Topic Marshal r1 p1 w1 e (herr.trans h2),
          wire_value_of_error Topic Marshal r1 p1 w2 e h2]
    · rw [wire_error_eq, wire_error_eq]
      exact herr

/-- C9, amended, on the onboarding example invoked in the worlds 0 and 5: with
the encoder that succeeds on every call the two results are the same pair, and
with the encoder whose bytes depend on the world the workflow name and the
outcome are the same. -/
theorem wire_deterministic_given_encoder_outcome_witness :
    (WireRecordToOutboxEventData sampleTopic (recording countingEncoder) sampleRecord 1
      (0, [])).2.2 =
      (WireRecordToOutboxEventData sampleTopic (recording countingEncoder) sampleRecord 1
        (5, [])).2.2 ∧
    (WireRecordToOutboxEventData sampleTopic countingEncoder sampleRecord 1 0).1 =
      (WireRecordToOutboxEventData sampleTopic countingEncoder sampleRecord 1 5).1 ∧
    (WireRecordToOutboxEventData sampleTopic seededEncoder sampleRecord 1 0).1.1.WorkflowName =
      (WireRecordToOutboxEventData sampleTopic seededEncoder sampleRecord 1 5).1.1.WorkflowName ∧
    ((WireRecordToOutboxEventData sampleTopic seededEncoder sampleRecord 1 0).1.2).isSome =
      ((WireRecordToOutboxEventData sampleTopic seededEncoder sampleRecord 1 5).1.2).isSome :=
  ⟨(wire_deterministic_given_encoder_outcome sampleTopic countingEncoder sampleRecord
      sampleRecord 1 1 0 5 rfl rfl (by decide)).2.2.2.1,
   (wire_deterministic_given_encoder_outcome sampleTopic countingEncoder sampleRecord
      sampleRecord 1 1 0 5 rfl rfl (by decide)).2.2.2.2.2.2 (by decide),
   (wire_deterministic_given_encoder_outcome sampleTopic seededEncoder sampleRecord
      sampleRecord 1 1 0 5 rfl rfl (by decide)).2.2.2.2.1,
   (wire_deterministic_given_encoder_outcome sampleTopic seededEncoder sampleRecord
      sampleRecord 1 1 0 5 rfl rfl (by decide)).2.2.2.2.2.1⟩

/-- C10: the `foreign_id` field of the message is the record's `ID`, the
`foreign_id` header is the record's `ForeignID`, and the two differ whenever
the record's `ID` differs from its `ForeignID`. -/
theorem wire_foreign_id_field_and_header {ρ : Type} (Topic : TopicFn) (record : WireRecord ρ)
    (p : RunState) :
    (outboxRecordOf Topic record p).ForeignId = record.ID ∧
    (outboxRecordOf Topic record p).Headers.get? HeaderForeignID = some record.ForeignID ∧
    (record.ID ≠ record.ForeignID →
      (outboxRecordOf Topic record p).Headers.get? HeaderForeignID ≠
        some (outboxRecordOf Topic record p).ForeignId) := by
  have hhdr : (outboxRecordOf Topic record p).Headers.get? HeaderForeignID =
      some record.ForeignID := by
    rw [outboxRecordOf_headers]
    rfl
  refine ⟨rfl, hhdr, ?_⟩
  intro hne h
  rw [hhdr] at h
  exact hne (Option.some.inj h).symm

/-- C10 on the onboarding example: the field is `rec-1`, the header is
`cust-42`. -/
theorem wire_foreign_id_field_and_header_witness :
    (outboxRecordOf sampleTopic sampleRecord 1).ForeignId = "rec-1" ∧
    (outboxRecordOf sampleTopic sampleRecord 1).Headers.get? HeaderForeignID = some "cust-42" ∧
    (outboxRecordOf sampleTopic sampleRecord 1).Headers.get? HeaderForeignID ≠
      some (outboxRecordOf sampleTopic sampleRecord 1).ForeignId :=
  ⟨(wire_foreign_id_field_and_header sampleTopic sampleRecord 1).1,
   (wire_foreign_id_field_and_header sampleTopic sampleRecord 1).2.1,
   (wire_foreign_id_field_and_header sampleTopic sampleRecord 1).2.2 (by decide)⟩

/-- C11: the `type` field of the message is the record's status wrapped to 32
bits. For every record it lies between -2^31 and 2^31-1, it is congruent to the
status modulo 2^32 and it is the only such integer; it equals the status
exactly when the status lies between -2^31 and 2^31-1; a record whose status is
larger by a multiple of 2^32 gives the same type; and the `topic` header is
still the topic function applied to the untruncated status. -/
theorem wire_type_is_int32_wraparound {ρ : Type} (Topic : TopicFn) (record : WireRecord ρ)
    (p : RunState) :
    IsInt32 (outboxRecordOf Topic record p).Type_ ∧
    (∃ k : Int, record.Status = (outboxRecordOf Topic record p).Type_ + k * 4294967296) ∧
    (∀ t : Int, IsInt32 t → (∃ k : Int, record.Status = t + k * 4294967296) →
      t = (outboxRecordOf Topic record p).Type_) ∧
    ((outboxRecordOf Topic record p).Type_ = record.Status ↔ IsInt32 record.Status) ∧
    (∀ (record2 : WireRecord ρ) (p2 : RunState) (k : Int),
      record2.Status = record.Status + k * 4294967296 →
      (outboxRecordOf Topic record2 p2).Type_ = (outboxRecordOf Topic record p).Type_) ∧
    (outboxRecordOf Topic record p).Headers.get? HeaderTopic =
      some (Topic record.WorkflowName record.Status) := by
  refine ⟨int32_isInt32 _, int32_congruent _, ?_, ?_, ?_, (outboxRecordOf_get Topic record p).2.2.1⟩
  · intro t ht hk
    exact int32_unique record.Status t ht hk
  · constructor
    · intro h
      have hr : IsInt32 (outboxRecordOf Topic record p).Type_ := int32_isInt32 _
      rw [h] at hr
      exact hr
    · intro h
      exact int32_of_isInt32 record.Status h
  · intro record2 p2 k hk
    show int32 record2.Status = int32 record.Status
    rw [hk]
    exact int32_shift record.Status k

/-- C11 on the onboarding record and the same record with the status raised by
2^32: both give type 3, the second one is not its status, and its topic is
derived from the status 4294967299. -/
theorem wire_type_is_int32_wraparound_witness :
    (outboxRecordOf sampleTopic wrappedStatusRecord 1).Type_ =
      (outboxRecordOf sampleTopic sampleRecord 1).Type_ ∧
    (outboxRecordOf sampleTopic sampleRecord 1).Type_ = 3 ∧
    (outboxRecordOf sampleTopic wrappedStatusRecord 1).Type_ ≠ wrappedStatusRecord.Status ∧
    (outboxRecordOf sampleTopic wrappedStatusRecord 1).Headers.get? HeaderTopic =
      some "onboarding-4294967299" :=
  ⟨(wire_type_is_int32_wraparound sampleTopic sampleRecord 1).2.2.2.2.1
      wrappedStatusRecord 1 1 (by decide),
   (wire_type_is_int32_wraparound sampleTopic sampleRecord 1).2.2.2.1.mpr (by decide),
   fun h => absurd
     ((wire_type_is_int32_wraparound sampleTopic wrappedStatusRecord 1).2.2.2.1.mp h)
     (by decide),
   (wire_type_is_int32_wraparound sampleTopic wrappedStatusRecord 1).2.2.2.2.2⟩

/-- C12: two records that agree on `WorkflowName`, `ID`, `ForeignID`, `Status`,
`RunID` and `RunState`, whatever their other fields hold, give for the same
previous run state the same message and, with the same encoder in the same
world, the same result. -/
theorem wire_depends_on_consumed_fields_only {ρ₁ ρ₂ σ ε : Type} (Topic : TopicFn)
    (Marshal : Encoder σ ε) (r1 : WireRecord ρ₁) (r2 : WireRecord ρ₂) (p : RunState)
    (world : σ)
    (hname : r1.WorkflowName = r2.WorkflowName) (hid : r1.ID = r2.ID)
    (hforeign : r1.ForeignID = r2.ForeignID) (hstatus : r1.Status = r2.Status)
    (hrunid : r1.RunID = r2.RunID) (hrunstate : r1.RunState = r2.RunState) :
    outboxRecordOf Topic r1 p = outboxRecordOf Topic r2 p ∧
    WireRecordToOutboxEventData Topic Marshal r1 p world =
      WireRecordToOutboxEventData Topic Marshal r2 p world := by
  have hmsg : outboxRecordOf Topic r1 p = outboxRecordOf Topic r2 p := by
    simp only [outboxRecordOf, hname, hid, hforeign, hstatus, hrunid, hrunstate]
  refine ⟨hmsg, ?_⟩
  simp only [WireRecordToOutboxEventData, hmsg, hname]

/-- C12 on the onboarding record and on a record with the same six fields that
also carries a payload and timestamps. -/
theorem wire_depends_on_consumed_fields_only_witness :
    outboxRecordOf sampleTopic sampleRecord 1 = outboxRecordOf sampleTopic payloadRecord 1 ∧
    WireRecordToOutboxEventData sampleTopic seededEncoder sampleRecord 1 4 =
      WireRecordToOutboxEventData sampleTopic seededEncoder payloadRecord 1 4 :=
  wire_depends_on_consumed_fields_only sampleTopic seededEncoder sampleRecord payloadRecord 1 4
    rfl rfl rfl rfl rfl rfl

/-- C13: let two calls build messages with the same `foreign_id`, the same
`type` and headers maps with the same lookups, both statuses lying between
-2^31 and 2^31-1 and the run states being Go `int`s. Then the two records agree
on `WorkflowName`, `ID`, `ForeignID`, `Status`, `RunID` and `RunState`, and the
two previous run states are equal, for any topic function. -/
theorem wire_message_injective {ρ₁ ρ₂ : Type} (Topic : TopicFn) (r1 : WireRecord ρ₁)
    (r2 : WireRecord ρ₂) (p1 p2 : RunState)
    (hs1 : IsInt32 r1.Status) (hs2 : IsInt32 r2.Status)
    (hr1 : IsGoInt r1.RunState) (hr2 : IsGoInt r2.RunState)
    (hp1 : IsGoInt p1) (hp2 : IsGoInt p2)
    (hfid : (outboxRecordOf Topic r1 p1).ForeignId = (outboxRecordOf Topic r2 p2).ForeignId)
    (htype : (outboxRecordOf Topic r1 p1).Type_ = (outboxRecordOf Topic r2 p2).Type_)
    (hheaders : ∀ k, (outboxRecordOf Topic r1 p1).Headers.get? k =
      (outboxRecordOf Topic r2 p2).Headers.get? k) :
    r1.WorkflowName = r2.WorkflowName ∧ r1.ID = r2.ID ∧ r1.ForeignID = r2.ForeignID ∧
    r1.Status = r2.Status ∧ r1.RunID = r2.RunID ∧ r1.RunState = r2.RunState ∧ p1 = p2 := by
  obtain ⟨a1, b1, _, d1, e1, f1⟩ := outboxRecordOf_get Topic r1 p1
  obtain ⟨a2, b2, _, d2, e2, f2⟩ := outboxRecordOf_get Topic r2 p2
  have ha := hheaders HeaderWorkflowName
  have hb := hheaders HeaderForeignID
  have hd := hheaders HeaderRunID
  have he := hheaders HeaderRunState
  have hf := hheaders HeaderPreviousRunState
  rw [a1, a2] at ha
  rw [b1, b2] at hb
  rw [d1, d2] at hd
  rw [e1, e2, int64_of_isGoInt _ hr1, int64_of_isGoInt _ hr2] at he
  rw [f1, f2, int64_of_isGoInt _ hp1, int64_of_isGoInt _ hp2] at hf
  have hstatus : r1.Status = r2.Status := by
    have h1 : (outboxRecordOf Topic r1 p1).Type_ = r1.Status := int32_of_isInt32 _ hs1
    have h2 : (outboxRecordOf Topic r2 p2).Type_ = r2.Status := int32_of_isInt32 _ hs2
    rw [← h1, ← h2]
    exact htype
  exact ⟨Option.some.inj ha, hfid, Option.some.inj hb, hstatus, Option.some.inj hd,
    strconv.FormatInt_injective _ _ hr1 hr2 (Option.some.inj he),
    strconv.FormatInt_injective _ _ hp1 hp2 (Option.some.inj hf)⟩

/-- C13 on the onboarding record and the record with the same six fields and a
payload, which build the same message. -/
theorem wire_message_injective_witness :
    sampleRecord.WorkflowName = payloadRecord.WorkflowName ∧
    sampleRecord.ID = payloadRecord.ID ∧
    sampleRecord.ForeignID = payloadRecord.ForeignID ∧
    sampleRecord.Status = payloadRecord.Status ∧
    sampleRecord.RunID = payloadRecord.RunID ∧
    sampleRecord.RunState = payloadRecord.RunState ∧ (1 : RunState) = 1 :=
  wire_message_injective sampleTopic sampleRecord payloadRecord 1 1
    (by decide) (by decide) (by decide) (by decide) (by decide) (by decide)
    rfl rfl (fun _ => rfl)

end Workflow
